import Mathlib

/-!
# Verification of the RTIS driving-behaviour analysis core

Shallow embedding of the repository's core pipeline
(`core/signal_mapper.py`, `core/stop_detector.py`, `core/violation_engine.py`,
`config/speed_rules.py`) and proofs of the frozen claims about it.

Modelling conventions:
* timestamps are integers (seconds); `pd.Timedelta(seconds=n)` is integer
  subtraction and `(end - start).total_seconds()` is integer subtraction;
* latitudes, longitudes and speeds are rationals;
* Python `round(x, 2)` is round-half-to-even on the exact value;
* dataframes are lists of records, iterated in row order;
* a pandas unique-index lookup (`set_index` + `in index` + `.loc`) is a
  first-match scan (`List.find?`), which coincides with pandas whenever the
  indexed column is unique — the documented invariant for `sequence_no`;
* `raise` is `Except.error`; the floating-point trigonometry of
  `haversine_distance` is embedded as the corresponding exact real-number
  formula, and the stop detector is polymorphic in the ordered field the
  distance function lands in.
-/

unseal Rat.add Rat.sub Rat.mul Rat.inv List.merge List.mergeSort

/-- One cleaned RTIS telemetry row.  The source refers to the time column as
`timestamp` (in `rtis_loader.py`, `violation_engine.py`) and as `logging_time`
(in `stop_detector.py`); both name the same quantity, embedded as the single
field `timestamp`. -/
structure TelemetryPoint where
  timestamp : ℤ
  latitude : ℚ
  longitude : ℚ
  speed : ℚ
  deriving Repr, DecidableEq

/-- One row of the direction-aware signal context consumed by
`detect_signal_stops` and `evaluate_speed_violations`. -/
structure Signal where
  sequence_no : ℤ
  signal_name : String
  asset_type : String
  emoji : String
  latitude : ℚ
  longitude : ℚ
  deriving Repr, DecidableEq

/-- One stop-event row produced by `detect_signal_stops` (fields exactly as the
dict literal at `stop_detector.py:94-103`).  `α` is the ordered field holding
the distance value. -/
structure StopEvent (α : Type) where
  sequence_no : ℤ
  signal_name : String
  asset_type : String
  emoji : String
  stop_start_time : ℤ
  stop_end_time : ℤ
  stop_duration_sec : ℤ
  distance_to_asset_m : α
  deriving Repr, DecidableEq

/-- One violation row produced by `evaluate_speed_violations` (fields exactly
as the dict literals at `violation_engine.py:76-83,96-103,107-114`).
`observed_speed` is `None` for the sanity case. -/
structure Violation where
  violation_type : String
  signal_name : String
  emoji : String
  allowed_speed : ℚ
  observed_speed : Option ℚ
  reference_time : ℤ
  deriving Repr, DecidableEq

/-- The per-aspect speed limits of one entry of `TRAIN_SPEED_RULES`
(`config/speed_rules.py`). -/
structure SpeedRule where
  single_yellow : ℚ
  double_yellow : ℚ
  deriving Repr, DecidableEq

/-- `config/speed_rules.py`: the hard-coded rule table. -/
def TRAIN_SPEED_RULES : List (String × SpeedRule) :=
  [("VANDE BHARAT", ⟨90, 110⟩), ("COACHING", ⟨60, 100⟩), ("FREIGHT", ⟨40, 55⟩)]

/-- Dictionary lookup `TRAIN_SPEED_RULES[key]` (first match in the table). -/
def lookupRule (key : String) : Option SpeedRule :=
  (TRAIN_SPEED_RULES.find? (fun p => p.1 == key)).map (·.2)

/-- Python `str.upper()` restricted to ASCII, which is all the inputs the
program compares against (`UP`, `DOWN` and the rule-table keys). -/
def asciiUpper (s : String) : String :=
  ⟨s.data.map Char.toUpper⟩

/-- Round-half-to-even to an integer: the exact-value idealization of Python's
built-in `round(x)`. -/
def rne {α : Type} [LinearOrderedField α] [FloorRing α] (x : α) : ℤ :=
  if Int.fract x = 1 / 2 then 2 * round (x / 2) else round x

/-- Python `round(x, 2)`: round-half-to-even at two decimal places. -/
def round2 {α : Type} [LinearOrderedField α] [FloorRing α] (x : α) : α :=
  ((rne (x * 100) : ℤ) : α) / 100

/-! ## `core/stop_detector.py` -/

/-- Python `math.radians`: degrees to radians. -/
noncomputable def radians (deg : ℝ) : ℝ :=
  deg * (Real.pi / 180)

/-- Python `math.atan2 y x`: the argument of the complex number `x + y*i`,
in `(-π, π]`. -/
noncomputable def atan2 (y x : ℝ) : ℝ :=
  Complex.arg ⟨x, y⟩

/-- `stop_detector.py:13-22` (`haversine_distance`): great-circle distance in
meters on a sphere of radius 6,371,000 m, as the exact real-number reading of
the floating-point formula. -/
noncomputable def haversine_distance (lat1 lon1 lat2 lon2 : ℝ) : ℝ :=
  let R : ℝ := 6371000
  let la1 := radians lat1
  let lo1 := radians lon1
  let la2 := radians lat2
  let lo2 := radians lon2
  let dlat := la2 - la1
  let dlon := lo2 - lo1
  let a := Real.sin (dlat / 2) ^ 2 + Real.cos la1 * Real.cos la2 * Real.sin (dlon / 2) ^ 2
  let c := 2 * atan2 (Real.sqrt a) (Real.sqrt (1 - a))
  R * c

/-- `haversine_distance` on the rational coordinates of the embedded records. -/
noncomputable def haversineDistQ (lat1 lon1 lat2 lon2 : ℚ) : ℝ :=
  haversine_distance lat1 lon1 lat2 lon2

/-- The grouping loop at `stop_detector.py:42-55`: walk the rows in order,
extending `current` while the stopped flag holds, flushing `current` to
`groups` when it breaks, and flushing the trailing group at the end. -/
def groupLoop {β : Type} (p : β → Bool) (groups : List (List β)) (current : List β) :
    List β → List (List β)
  | [] => if current.isEmpty then groups else groups ++ [current]
  | row :: rest =>
    if p row then groupLoop p groups (current ++ [row]) rest
    else if current.isEmpty then groupLoop p groups [] rest
    else groupLoop p (groups ++ [current]) [] rest

/-- `stop_detector.py:39-55`: the consecutive groups of points whose speed is
at or below the stop threshold (`is_stopped`). -/
def stop_groups (stop_speed_threshold : ℚ) (rtis : List TelemetryPoint) :
    List (List TelemetryPoint) :=
  groupLoop (fun r => decide (r.speed ≤ stop_speed_threshold)) [] [] rtis

/-- Modelled from the spec (StopDetector step 1): partition a sequence into
the maximal runs of consecutive points satisfying `p`, a boundary occurring
wherever the flag changes.  Comparison definition for the segmentation claim;
the source's loop is `stop_groups`. -/
def maximalRuns {β : Type} (p : β → Bool) : List β → List (List β)
  | [] => []
  | x :: xs =>
    if p x then (x :: xs.takeWhile p) :: maximalRuns p (xs.dropWhile p)
    else maximalRuns p xs
termination_by l => l.length
decreasing_by
  · simp only [List.length_cons]
    exact Nat.lt_succ_of_le (List.Sublist.length_le (List.dropWhile_sublist _))
  · simp only [List.length_cons]
    exact Nat.lt_succ_self _

unseal maximalRuns

/-- The nearest-asset scan at `stop_detector.py:73-84`: a linear pass keeping
the running minimum distance, starting from `nearest_signal = None` and
`min_distance = inf` (modelled by the `none` accumulator), replacing the
candidate only on a strictly smaller distance. -/
def nearestLoop {α : Type} [LinearOrder α] (D : Signal → α) :
    Option (Signal × α) → List Signal → Option (Signal × α)
  | acc, [] => acc
  | acc, sig :: rest =>
    let d := D sig
    let acc' := match acc with
      | none => some (sig, d)
      | some (s0, d0) => if d < d0 then some (sig, d) else some (s0, d0)
    nearestLoop D acc' rest

/-- `stop_detector.py:70-71`: the dwell centroid latitude (column mean). -/
def mean_lat (run : List TelemetryPoint) : ℚ :=
  (run.map (·.latitude)).sum / (run.length : ℚ)

/-- `stop_detector.py:70-71`: the dwell centroid longitude (column mean). -/
def mean_lon (run : List TelemetryPoint) : ℚ :=
  (run.map (·.longitude)).sum / (run.length : ℚ)

/-- The body of the per-group loop at `stop_detector.py:62-103`: duration
filter, centroid, nearest-signal scan, proximity check, excluded-asset check,
and the emitted stop-event record.  `α` is the ordered field the distance
function `dist` lands in (`ℝ` for the haversine itself). -/
def run_to_event {α : Type} [LinearOrderedField α] [FloorRing α]
    (dist : ℚ → ℚ → ℚ → ℚ → α) (signals : List Signal)
    (min_stop_duration_sec : ℤ) (max_signal_radius_m : ℤ)
    (run : List TelemetryPoint) : Option (StopEvent α) :=
  match run.head?, run.getLast? with
  | some first, some lastP =>
    let start_time := first.timestamp
    let end_time := lastP.timestamp
    let duration_sec := end_time - start_time
    if duration_sec < min_stop_duration_sec then none
    else
      match nearestLoop (fun sig => dist (mean_lat run) (mean_lon run)
          sig.latitude sig.longitude) none signals with
      | none => none
      | some (sig, d) =>
        if d > (max_signal_radius_m : α) then none
        else if sig.asset_type = "LEVEL_CROSSING" ∨ sig.asset_type = "NEUTRAL_SECTION" then
          none
        else
          some ⟨sig.sequence_no, sig.signal_name, sig.asset_type, sig.emoji,
            start_time, end_time, duration_sec, round2 d⟩
  | _, _ => none

/-- `stop_detector.py:25-105` (`detect_signal_stops`): group consecutive
stopped points, then emit one stop event per group that survives the duration,
proximity and excluded-asset checks, in group order. -/
def detect_signal_stops {α : Type} [LinearOrderedField α] [FloorRing α]
    (dist : ℚ → ℚ → ℚ → ℚ → α) (rtis : List TelemetryPoint) (signals : List Signal)
    (stop_speed_threshold : ℚ) (min_stop_duration_sec : ℤ) (max_signal_radius_m : ℤ) :
    List (StopEvent α) :=
  (stop_groups stop_speed_threshold rtis).filterMap
    (run_to_event dist signals min_stop_duration_sec max_signal_radius_m)

example :
    detect_signal_stops (fun _ _ _ _ => (0 : ℚ))
      [⟨0, 1, 2, 0⟩, ⟨6, 1, 2, 0⟩, ⟨12, 1, 2, 0⟩]
      [⟨1, "S", "HOME", "H", 1, 2⟩] 0 10 150 =
    [⟨1, "S", "HOME", "H", 0, 12, 12, 0⟩] := by decide

/-! ## `core/violation_engine.py` -/

/-- `violation_engine.py:11-23` (`_get_speed_window`): the RTIS rows with
timestamp in the closed window `[ref_time - lookback, ref_time]`. -/
def get_speed_window (rtis : List TelemetryPoint) (ref_time : ℤ)
    (lookback_seconds : ℤ := 180) : List TelemetryPoint :=
  rtis.filter (fun r =>
    decide (ref_time - lookback_seconds ≤ r.timestamp) && decide (r.timestamp ≤ ref_time))

/-- The pandas unique-index lookup `signal_by_seq.loc[seq]` built at
`violation_engine.py:57`: first signal with the given `sequence_no`. -/
def signalBySeq (signals : List Signal) (seq : ℤ) : Option Signal :=
  signals.find? (fun s => s.sequence_no == seq)

/-- `window["speed"].max()`: the maximum speed of a telemetry window, `none`
for the empty window. -/
def maxSpeed? : List TelemetryPoint → Option ℚ
  | [] => none
  | w :: ws => some ((ws.map (·.speed)).foldl max w.speed)

/-- One yellow-aspect check (the SINGLE/DOUBLE YELLOW blocks at
`violation_engine.py:65-103`, which differ only in the sequence offset, the
limit and the type string): look up the signal at `red_seq - offset`; if it
exists, take the lookback window before `red_time`; if non-empty, compare its
maximum speed with the allowed limit. -/
def yellowCheck (rtis : List TelemetryPoint) (signals : List Signal)
    (vtype : String) (red_seq : ℤ) (red_time : ℤ) (offset : ℤ) (allowed : ℚ) :
    List Violation :=
  match signalBySeq signals (red_seq - offset) with
  | none => []
  | some sig =>
    match get_speed_window rtis red_time with
    | [] => []
    | w :: ws =>
      let max_speed := (ws.map (·.speed)).foldl max w.speed
      if max_speed > allowed then
        [⟨vtype, sig.signal_name, sig.emoji, allowed, some (round2 max_speed), red_time⟩]
      else []

/-- The body of the per-stop loop at `violation_engine.py:61-114`: the
single-yellow check, then the double-yellow check, then the red-signal sanity
check, in that order. -/
def stopViolations {α : Type} (rtis : List TelemetryPoint) (signals : List Signal)
    (rule : SpeedRule) (stop : StopEvent α) : List Violation :=
  yellowCheck rtis signals "SINGLE_YELLOW_SPEED"
      stop.sequence_no stop.stop_start_time 1 rule.single_yellow
    ++ yellowCheck rtis signals "DOUBLE_YELLOW_SPEED"
      stop.sequence_no stop.stop_start_time 2 rule.double_yellow
    ++ (if stop.stop_duration_sec ≤ 0 then
        [⟨"RED_SIGNAL_NO_STOP", stop.signal_name, stop.emoji, 0, none, stop.stop_start_time⟩]
      else [])

/-- `violation_engine.py:26-116` (`evaluate_speed_violations`): validate the
uppercased train type against the rule table, then accumulate each stop
event's violations in stop order. -/
def evaluate_speed_violations {α : Type} (rtis : List TelemetryPoint)
    (signals : List Signal) (stop_events : List (StopEvent α)) (train_type : String) :
    Except String (List Violation) :=
  match lookupRule (asciiUpper train_type) with
  | none => .error ("Invalid train type: " ++ train_type)
  | some rule => .ok (stop_events.flatMap (stopViolations rtis signals rule))

example :
    evaluate_speed_violations [⟨900, 0, 0, 70⟩]
      [⟨1, "S1", "SIGNAL", "Y", 0, 0⟩]
      [(⟨2, "S2", "SIGNAL", "R", 1000, 1012, 12, 0⟩ : StopEvent ℚ)] "FREIGHT" =
    .ok [⟨"SINGLE_YELLOW_SPEED", "S1", "Y", 40, some 70, 1000⟩] := rfl

/-! ## `core/signal_mapper.py` -/

/-- One row of the signal master file after the upper-casing of column names
in `section_loader.py:99`. -/
structure SignalMasterRow where
  SIGNAL_NAME : String
  STATION : String
  SIGNAL_TYPE : String
  OHE_ID : String
  SEQUENCE_NO : ℤ
  deriving Repr, DecidableEq

/-- One row of the OHE coordinates file. -/
structure OheRow where
  OHE_ID : String
  LATITUDE : ℚ
  LONGITUDE : ℚ
  deriving Repr, DecidableEq

/-- One row of the optional FSD signal file. -/
structure FsdRow where
  SIGNAL_NAME : String
  LATITUDE : ℚ
  LONGITUDE : ℚ
  deriving Repr, DecidableEq

/-- One row of the output of `resolve_signal_coordinates` (the dict literal at
`signal_mapper.py:58-65`). -/
structure ResolvedSignal where
  signal_name : String
  station : String
  signal_type : String
  sequence_no : ℤ
  latitude : ℚ
  longitude : ℚ
  deriving Repr, DecidableEq

/-- The body of the per-row loop at `signal_mapper.py:30-65`: take the
coordinates of the first FSD row with the same signal name if the FSD file is
present and has a match, else those of the first OHE row with the same OHE id,
and raise if neither exists. -/
def resolve_row (ohe_df : List OheRow) (fsd_df : Option (List FsdRow))
    (row : SignalMasterRow) : Except String ResolvedSignal :=
  let fsdCoords :=
    match fsd_df with
    | none => none
    | some fsd =>
      match fsd.find? (fun (r : FsdRow) => r.SIGNAL_NAME == row.SIGNAL_NAME) with
      | some m => some (m.LATITUDE, m.LONGITUDE)
      | none => none
  let coords :=
    match fsdCoords with
    | some c => some c
    | none =>
      match ohe_df.find? (fun (r : OheRow) => r.OHE_ID == row.OHE_ID) with
      | some m => some (m.LATITUDE, m.LONGITUDE)
      | none => none
  match coords with
  | some (lat, lon) =>
    .ok (⟨row.SIGNAL_NAME, row.STATION, row.SIGNAL_TYPE, row.SEQUENCE_NO, lat, lon⟩ :
      ResolvedSignal)
  | none => .error ("Coordinates not found for signal: " ++ row.SIGNAL_NAME)

/-- `signal_mapper.py:11-67` (`resolve_signal_coordinates`): resolve final
coordinates for each signal master row, in row order. -/
def resolve_signal_coordinates (signal_master_df : List SignalMasterRow)
    (ohe_df : List OheRow) (fsd_df : Option (List FsdRow)) :
    Except String (List ResolvedSignal) :=
  signal_master_df.mapM (resolve_row ohe_df fsd_df)

/-- Access to the `sequence_no` column, so that `apply_direction` is generic
in the remaining columns of the dataframe, as the pandas code is. -/
class HasSeq (β : Type) where
  getSeq : β → ℤ
  setSeq : β → ℤ → β

instance : HasSeq Signal where
  getSeq := Signal.sequence_no
  setSeq s n := { s with sequence_no := n }

instance : HasSeq ResolvedSignal where
  getSeq := ResolvedSignal.sequence_no
  setSeq s n := { s with sequence_no := n }

/-- `signal_mapper.py:70-101` (`apply_direction`): validate the uppercased
direction; for `UP` remap every `sequence_no` to `max - sequence_no + 1`
(`df["sequence_no"].max()` modelled by `List.max?`); re-sort ascending by the
(possibly remapped) `sequence_no`. -/
def apply_direction {β : Type} [HasSeq β] (signal_df : List β) (direction : String) :
    Except String (List β) :=
  let d := asciiUpper direction
  if d ≠ "UP" ∧ d ≠ "DOWN" then
    .error "Direction must be UP or DOWN."
  else
    let df :=
      if d = "UP" then
        let max_seq := ((signal_df.map HasSeq.getSeq).max?).getD 0
        signal_df.map (fun s => HasSeq.setSeq s (max_seq - HasSeq.getSeq s + 1))
      else signal_df
    .ok (df.mergeSort (fun a b => decide (HasSeq.getSeq a ≤ HasSeq.getSeq b)))

/-- `signal_mapper.py:104-136` (`build_signal_context`): resolve coordinates,
then apply the direction logic.  The `section_context` dict is passed as its
four fields. -/
def build_signal_context (signal_master_df : List SignalMasterRow)
    (ohe_df : List OheRow) (fsd_df : Option (List FsdRow)) (direction : String) :
    Except String (List ResolvedSignal) := do
  let signal_df ← resolve_signal_coordinates signal_master_df ohe_df fsd_df
  apply_direction signal_df direction

/-- `s` contains `pat` as a substring (on the character lists). -/
def strContains (s pat : String) : Bool :=
  s.data.tails.any (fun t => pat.data.isPrefixOf t)

/-- Modelled from the spec: the fixed, priority-ordered keyword rules of the
signal classifier (spec 4.1), which is absent from `src/` — only its outputs
(`asset_type`, the glyph column) are consumed there.  The spec names the
literal keyword only for the HOME rule; the level-crossing, neutral-section,
starter/advance and distant keyword tests are parameters. -/
structure KeywordRules where
  levelCrossing : String → Bool
  neutralSection : String → Bool
  starter : String → Bool
  distant : String → Bool

/-- Modelled from the spec: classify a signal by matching its uppercased name
against the keyword rules, first match wins; level-crossing, then
neutral-section, then HOME, then starter/advance, then distant, else the
generic SIGNAL. -/
def classify_signal (kw : KeywordRules) (name : String) : String :=
  let n := asciiUpper name
  if kw.levelCrossing n then "LEVEL_CROSSING"
  else if kw.neutralSection n then "NEUTRAL_SECTION"
  else if strContains n "HOME" then "HOME"
  else if kw.starter n then "STARTER"
  else if kw.distant n then "DISTANT"
  else "SIGNAL"

/-- Modelled from the spec: the fixed display glyph tied 1:1 to each
asset_type (the glyph characters themselves are unspecified; distinct
placeholders are used). -/
def asset_glyph : String → String
  | "LEVEL_CROSSING" => "X"
  | "NEUTRAL_SECTION" => "N"
  | "HOME" => "H"
  | "STARTER" => "S"
  | "DISTANT" => "D"
  | _ => "G"

/-- A raw signal-registry row as the spec's SignalContextBuilder consumes it:
name and coordinates, in file order. -/
structure RawSignalRow where
  name : String
  latitude : ℚ
  longitude : ℚ
  deriving Repr, DecidableEq

/-- Modelled from the spec: assign `sequence_no = 1..N` in file order and
classify each raw signal row (spec 4.1). -/
def classifySignals (kw : KeywordRules) (rows : List RawSignalRow) : List Signal :=
  rows.enum.map (fun p =>
    ⟨(p.1 : ℤ) + 1, p.2.name, classify_signal kw p.2.name,
      asset_glyph (classify_signal kw p.2.name), p.2.latitude, p.2.longitude⟩)

/-! ## Helper lemmas -/

theorem asciiUpper_up : asciiUpper "UP" = "UP" := rfl

theorem asciiUpper_down : asciiUpper "DOWN" = "DOWN" := rfl

theorem lookupRule_eq_none_iff (k : String) :
    lookupRule k = none ↔ k ∉ TRAIN_SPEED_RULES.map Prod.fst := by
  by_cases h1 : k = "VANDE BHARAT"
  · subst h1; decide
  by_cases h2 : k = "COACHING"
  · subst h2; decide
  by_cases h3 : k = "FREIGHT"
  · subst h3; decide
  simp [lookupRule, TRAIN_SPEED_RULES, List.find?_cons, beq_iff_eq,
    Ne.symm h1, Ne.symm h2, Ne.symm h3, h1, h2, h3]

theorem apply_direction_valid {β : Type} [HasSeq β] (signal_df : List β)
    (direction : String) (h : asciiUpper direction = "UP" ∨ asciiUpper direction = "DOWN") :
    apply_direction signal_df direction =
      .ok ((if asciiUpper direction = "UP" then
          signal_df.map (fun s => HasSeq.setSeq s
            (((signal_df.map HasSeq.getSeq).max?).getD 0 - HasSeq.getSeq s + 1))
        else signal_df).mergeSort
        (fun a b => decide (HasSeq.getSeq a ≤ HasSeq.getSeq b))) := by
  unfold apply_direction
  rcases h with h | h <;> simp [h]

theorem getSeq_signal (s : Signal) : (HasSeq.getSeq s : ℤ) = s.sequence_no := rfl

theorem setSeq_signal (s : Signal) (n : ℤ) :
    (HasSeq.setSeq s n : Signal) = { s with sequence_no := n } := rfl

theorem mergeSort_sorted_seq {β : Type} [HasSeq β] (l : List β) :
    (l.mergeSort (fun a b => decide (HasSeq.getSeq a ≤ HasSeq.getSeq b))).Pairwise
      (fun a b => HasSeq.getSeq a ≤ HasSeq.getSeq b) := by
  have h := @List.sorted_mergeSort β
    (fun a b => decide (HasSeq.getSeq a ≤ HasSeq.getSeq b))
    (fun a b c h1 h2 => by
      simp only [decide_eq_true_eq] at h1 h2 ⊢
      exact le_trans h1 h2)
    (fun a b => by
      simp only [Bool.or_eq_true, decide_eq_true_eq]
      exact le_total _ _) l
  exact h.imp (fun hab => by simpa using hab)

theorem max?_eq_of_mem_of_ub (l : List ℤ) (m : ℤ) (hm : m ∈ l)
    (hub : ∀ x ∈ l, x ≤ m) : l.max? = some m := by
  have := @List.max?_eq_some_iff ℤ m _ _ ⟨fun h h2 => le_antisymm h h2⟩
    Int.le_refl (fun a b => max_choice a b) (fun a b c => max_le_iff) l
  exact this.mpr ⟨hm, hub⟩

/-! ## Claim C7 -/

/-- Claim C7, counterexample: the train category string `freight` is not a
recognized key of the rule table, yet `evaluate_speed_violations` succeeds on
it (the code uppercases before looking up), so failure is not equivalent to
the given string being unrecognized. -/
theorem evaluate_speed_violations_accepts_lowercase :
    evaluate_speed_violations ([] : List TelemetryPoint) []
        ([] : List (StopEvent ℚ)) "freight" = .ok [] ∧
      lookupRule "freight" = none := by
  exact ⟨rfl, by decide⟩

/-- Claim C7, amended: `evaluate_speed_violations` fails with a validation
error if and only if the UPPERCASED train category string is not a recognized
key of the rule table (keys `VANDE BHARAT`, `COACHING`, `FREIGHT`); a failure
carries no violation output (the error constructor carries only the message). -/
theorem evaluate_speed_violations_error_iff {α : Type} (rtis : List TelemetryPoint)
    (signals : List Signal) (stop_events : List (StopEvent α)) (train_type : String) :
    ((∃ msg, evaluate_speed_violations rtis signals stop_events train_type = .error msg) ↔
      asciiUpper train_type ∉ TRAIN_SPEED_RULES.map Prod.fst) ∧
    ∀ msg vs, evaluate_speed_violations rtis signals stop_events train_type = .error msg →
      evaluate_speed_violations rtis signals stop_events train_type ≠ .ok vs := by
  refine ⟨?_, ?_⟩
  · rw [← lookupRule_eq_none_iff]
    unfold evaluate_speed_violations
    cases h : lookupRule (asciiUpper train_type) with
    | none => simp
    | some rule => simp
  · intro msg vs herr
    rw [herr]
    simp

/-! ## Claim C8 -/

/-- Claim C8, counterexample: the direction string `down` is neither `UP` nor
`DOWN`, yet `apply_direction` succeeds on it (the code uppercases before
validating), so failure is not equivalent to the given string being outside
`UP`/`DOWN`. -/
theorem apply_direction_accepts_lowercase :
    apply_direction ([] : List Signal) "down" = .ok [] ∧
      "down" ≠ "UP" ∧ "down" ≠ "DOWN" := by
  exact ⟨rfl, by decide, by decide⟩

/-- Claim C8, amended: `apply_direction` fails with a validation error if and
only if the UPPERCASED direction string is neither `UP` nor `DOWN`; for
direction strings uppercasing to `UP` or `DOWN` it succeeds without error. -/
theorem apply_direction_error_iff {β : Type} [HasSeq β] (signal_df : List β)
    (direction : String) :
    ((∃ msg, apply_direction signal_df direction = .error msg) ↔
      (asciiUpper direction ≠ "UP" ∧ asciiUpper direction ≠ "DOWN")) ∧
    ((asciiUpper direction = "UP" ∨ asciiUpper direction = "DOWN") →
      ∃ out, apply_direction signal_df direction = .ok out) := by
  constructor
  · unfold apply_direction
    by_cases h : asciiUpper direction ≠ "UP" ∧ asciiUpper direction ≠ "DOWN" <;>
      simp [h]
  · intro h
    rw [apply_direction_valid signal_df direction h]
    exact ⟨_, rfl⟩

/-! ## Claim C10 -/

/-- Claim C10: both string-valued caller inputs are validated
case-insensitively: `apply_direction` (and its copy of the check in
`load_section_data`) uppercases the direction before checking membership in
`UP`/`DOWN`, and `evaluate_speed_violations` uppercases the train category
before the rule-table lookup, so any string whose uppercasing is a recognized
value is accepted and treated exactly as the uppercase value. -/
theorem case_insensitive_inputs :
    (∀ {β : Type} [HasSeq β] (signal_df : List β) (direction : String),
      asciiUpper direction = "UP" ∨ asciiUpper direction = "DOWN" →
        apply_direction signal_df direction =
          apply_direction signal_df (asciiUpper direction) ∧
        ∃ out, apply_direction signal_df direction = .ok out) ∧
    (∀ {α : Type} (rtis : List TelemetryPoint) (signals : List Signal)
        (stop_events : List (StopEvent α)) (train_type : String),
      asciiUpper train_type ∈ TRAIN_SPEED_RULES.map Prod.fst →
        evaluate_speed_violations rtis signals stop_events train_type =
          evaluate_speed_violations rtis signals stop_events (asciiUpper train_type) ∧
        ∃ out, evaluate_speed_violations rtis signals stop_events train_type = .ok out) := by
  constructor
  · intro β _ signal_df direction h
    have h2 : asciiUpper (asciiUpper direction) = asciiUpper direction := by
      rcases h with h | h <;> rw [h] <;> rfl
    refine ⟨?_, (apply_direction_error_iff signal_df direction).2 h⟩
    rw [apply_direction_valid signal_df direction h,
      apply_direction_valid signal_df (asciiUpper direction) (by rw [h2]; exact h), h2]
  · intro α rtis signals stop_events train_type h
    have h2 : asciiUpper (asciiUpper train_type) = asciiUpper train_type := by
      simp only [TRAIN_SPEED_RULES, List.map_cons, List.map_nil, List.mem_cons,
        List.mem_singleton] at h
      rcases h with h | h | h | h <;> first | (rw [h]; rfl) | exact absurd h (by simp)
    have hsome : ∃ rule, lookupRule (asciiUpper train_type) = some rule := by
      rcases hl : lookupRule (asciiUpper train_type) with _ | rule
      · exact absurd ((lookupRule_eq_none_iff _).mp hl) (by simpa using h)
      · exact ⟨rule, rfl⟩
    obtain ⟨rule, hrule⟩ := hsome
    unfold evaluate_speed_violations
    rw [h2, hrule]
    exact ⟨rfl, _, rfl⟩

/-- Claim C10, witness: `up` and `freight` are accepted and behave as `UP`
and `FREIGHT`. -/
theorem case_insensitive_inputs_witness :
    ((asciiUpper "up" = "UP" ∨ asciiUpper "up" = "DOWN") ∧
      apply_direction ([] : List Signal) "up" =
        apply_direction ([] : List Signal) (asciiUpper "up") ∧
      ∃ out, apply_direction ([] : List Signal) "up" = .ok out) ∧
    (asciiUpper "freight" ∈ TRAIN_SPEED_RULES.map Prod.fst ∧
      evaluate_speed_violations ([] : List TelemetryPoint) [] ([] : List (StopEvent ℚ))
          "freight" =
        evaluate_speed_violations [] [] ([] : List (StopEvent ℚ)) (asciiUpper "freight") ∧
      ∃ out, evaluate_speed_violations ([] : List TelemetryPoint) [] ([] : List (StopEvent ℚ))
          "freight" = .ok out) :=
  ⟨⟨Or.inl rfl, case_insensitive_inputs.1 ([] : List Signal) "up" (Or.inl rfl)⟩,
    ⟨by decide, case_insensitive_inputs.2 [] [] ([] : List (StopEvent ℚ)) "freight" (by decide)⟩⟩

/-! ## Violation-engine lemmas -/

theorem mem_yellowCheck_iff (rtis : List TelemetryPoint) (signals : List Signal)
    (vtype : String) (rs rt off : ℤ) (al : ℚ) (v : Violation) :
    v ∈ yellowCheck rtis signals vtype rs rt off al ↔
      ∃ sig m, signalBySeq signals (rs - off) = some sig ∧
        maxSpeed? (get_speed_window rtis rt 180) = some m ∧ al < m ∧
        v = ⟨vtype, sig.signal_name, sig.emoji, al, some (round2 m), rt⟩ := by
  unfold yellowCheck
  rcases h1 : signalBySeq signals (rs - off) with _ | sig
  · simp [h1]
  · rcases h2 : get_speed_window rtis rt 180 with _ | ⟨w, ws⟩
    · simp [h1, h2, maxSpeed?]
    · by_cases h3 : al < (ws.map (·.speed)).foldl max w.speed
      · simp [h1, h2, h3, maxSpeed?, GT.gt]
      · simp [h1, h2, h3, maxSpeed?, GT.gt]

theorem yellowCheck_type (rtis : List TelemetryPoint) (signals : List Signal)
    (vtype : String) (rs rt off : ℤ) (al : ℚ) (v : Violation)
    (hv : v ∈ yellowCheck rtis signals vtype rs rt off al) :
    v.violation_type = vtype := by
  obtain ⟨sig, m, -, -, -, rfl⟩ := (mem_yellowCheck_iff rtis signals vtype rs rt off al v).mp hv
  rfl

/-! ## Claim C9 -/

/-- Claim C9: for every stop event, `evaluate_speed_violations` (applied with
a recognized train category) emits a `RED_SIGNAL_NO_STOP` violation — with
undefined (`none`) observed speed and reference time equal to the stop start
time — if and only if the stop's duration is ≤ 0, and that violation comes
after the stop's single-yellow and double-yellow violations in the per-stop
output. -/
theorem evaluate_speed_violations_red_sanity {α : Type} (rtis : List TelemetryPoint)
    (signals : List Signal) (stop_events : List (StopEvent α)) (train_type : String)
    (rule : SpeedRule) (h : lookupRule (asciiUpper train_type) = some rule) :
    evaluate_speed_violations rtis signals stop_events train_type =
      .ok (stop_events.flatMap (stopViolations rtis signals rule)) ∧
    ∀ stop : StopEvent α, ∃ yellows,
      stopViolations rtis signals rule stop =
        yellows ++ (if stop.stop_duration_sec ≤ 0 then
          [⟨"RED_SIGNAL_NO_STOP", stop.signal_name, stop.emoji, 0, none,
            stop.stop_start_time⟩] else []) ∧
      (∀ v ∈ yellows, v.violation_type = "SINGLE_YELLOW_SPEED" ∨
        v.violation_type = "DOUBLE_YELLOW_SPEED") ∧
      ((⟨"RED_SIGNAL_NO_STOP", stop.signal_name, stop.emoji, 0, none,
          stop.stop_start_time⟩ : Violation) ∈ stopViolations rtis signals rule stop ↔
        stop.stop_duration_sec ≤ 0) := by
  constructor
  · unfold evaluate_speed_violations
    rw [h]
  · intro stop
    refine ⟨yellowCheck rtis signals "SINGLE_YELLOW_SPEED"
        stop.sequence_no stop.stop_start_time 1 rule.single_yellow
      ++ yellowCheck rtis signals "DOUBLE_YELLOW_SPEED"
        stop.sequence_no stop.stop_start_time 2 rule.double_yellow, ?_, ?_, ?_⟩
    · rfl
    · intro v hv
      rcases List.mem_append.mp hv with hv | hv
      · exact Or.inl (yellowCheck_type _ _ _ _ _ _ _ _ hv)
      · exact Or.inr (yellowCheck_type _ _ _ _ _ _ _ _ hv)
    · constructor
      · intro hv
        unfold stopViolations at hv
        rcases List.mem_append.mp hv with hv | hv
        · rcases List.mem_append.mp hv with hv | hv
          · have := yellowCheck_type _ _ _ _ _ _ _ _ hv
            simp at this
          · have := yellowCheck_type _ _ _ _ _ _ _ _ hv
            simp at this
        · by_contra hdur
          rw [if_neg hdur] at hv
          exact absurd hv (List.not_mem_nil _)
      · intro hdur
        unfold stopViolations
        refine List.mem_append.mpr (Or.inr ?_)
        rw [if_pos hdur]
        exact List.mem_singleton.mpr rfl

/-- Claim C9, witness: a degenerate stop event of duration 0 produces exactly
the red-signal sanity violation. -/
theorem evaluate_speed_violations_red_sanity_witness :
    lookupRule (asciiUpper "FREIGHT") = some ⟨40, 55⟩ ∧
    (evaluate_speed_violations ([] : List TelemetryPoint) []
        [(⟨5, "R", "SIGNAL", "E", 100, 100, 0, 0⟩ : StopEvent ℚ)] "FREIGHT" =
      .ok ([(⟨5, "R", "SIGNAL", "E", 100, 100, 0, 0⟩ : StopEvent ℚ)].flatMap
        (stopViolations [] [] ⟨40, 55⟩)) ∧
    ∀ stop : StopEvent ℚ, ∃ yellows,
      stopViolations ([] : List TelemetryPoint) [] (⟨40, 55⟩ : SpeedRule) stop =
        yellows ++ (if stop.stop_duration_sec ≤ 0 then
          [⟨"RED_SIGNAL_NO_STOP", stop.signal_name, stop.emoji, 0, none,
            stop.stop_start_time⟩] else []) ∧
      (∀ v ∈ yellows, v.violation_type = "SINGLE_YELLOW_SPEED" ∨
        v.violation_type = "DOUBLE_YELLOW_SPEED") ∧
      ((⟨"RED_SIGNAL_NO_STOP", stop.signal_name, stop.emoji, 0, none,
          stop.stop_start_time⟩ : Violation) ∈
            stopViolations ([] : List TelemetryPoint) [] (⟨40, 55⟩ : SpeedRule) stop ↔
        stop.stop_duration_sec ≤ 0)) :=
  ⟨by decide, evaluate_speed_violations_red_sanity [] []
    [(⟨5, "R", "SIGNAL", "E", 100, 100, 0, 0⟩ : StopEvent ℚ)] "FREIGHT" ⟨40, 55⟩ (by decide)⟩

/-! ## Claim C1 -/

/-- Claim C1, counterexample: the emitted single-yellow violation does not
carry the window's maximum speed itself — it carries that maximum rounded to
two decimals (`violation_engine.py:81`).  With a maximum window speed of
45.126 kmph over the FREIGHT limit 40, the violation records 45.13. -/
theorem evaluate_speed_violations_rounds_observed :
    evaluate_speed_violations [⟨900, 0, 0, 45126/1000⟩]
        [⟨1, "S1", "SIGNAL", "Y", 0, 0⟩]
        [(⟨2, "S2", "SIGNAL", "R", 1000, 1012, 12, 0⟩ : StopEvent ℚ)] "FREIGHT" =
      .ok [⟨"SINGLE_YELLOW_SPEED", "S1", "Y", 40, some (4513/100), 1000⟩] ∧
    maxSpeed? (get_speed_window [⟨900, 0, 0, 45126/1000⟩] 1000 180) =
      some (45126/1000) ∧
    (4513/100 : ℚ) ≠ 45126/1000 :=
  ⟨rfl, by decide, by decide⟩

/-- Claim C1, amended: for every stop event (with matched sequence number `S`
and stop start time `T`) and recognized train category,
`evaluate_speed_violations` emits a `SINGLE_YELLOW_SPEED` violation
referencing the signal at `S−1` if and only if that signal exists, the
telemetry window `[T − 180s, T]` is non-empty, and its maximum speed exceeds
the category's `SINGLE_YELLOW` limit; the violation carries the limit as
allowed speed, THE MAXIMUM WINDOW SPEED ROUNDED TO TWO DECIMALS as observed
speed, and reference time `T`.  The identical procedure applies at `S−2`
against the `DOUBLE_YELLOW` limit. -/
theorem evaluate_speed_violations_yellow_checks {α : Type} (rtis : List TelemetryPoint)
    (signals : List Signal) (stop_events : List (StopEvent α)) (train_type : String)
    (rule : SpeedRule) (h : lookupRule (asciiUpper train_type) = some rule) :
    evaluate_speed_violations rtis signals stop_events train_type =
      .ok (stop_events.flatMap (stopViolations rtis signals rule)) ∧
    ∀ stop : StopEvent α, ∀ v : Violation,
      ((v ∈ stopViolations rtis signals rule stop ∧
          v.violation_type = "SINGLE_YELLOW_SPEED") ↔
        (∃ sig m, signalBySeq signals (stop.sequence_no - 1) = some sig ∧
          maxSpeed? (get_speed_window rtis stop.stop_start_time 180) = some m ∧
          rule.single_yellow < m ∧
          v = ⟨"SINGLE_YELLOW_SPEED", sig.signal_name, sig.emoji, rule.single_yellow,
            some (round2 m), stop.stop_start_time⟩)) ∧
      ((v ∈ stopViolations rtis signals rule stop ∧
          v.violation_type = "DOUBLE_YELLOW_SPEED") ↔
        (∃ sig m, signalBySeq signals (stop.sequence_no - 2) = some sig ∧
          maxSpeed? (get_speed_window rtis stop.stop_start_time 180) = some m ∧
          rule.double_yellow < m ∧
          v = ⟨"DOUBLE_YELLOW_SPEED", sig.signal_name, sig.emoji, rule.double_yellow,
            some (round2 m), stop.stop_start_time⟩)) := by
  refine ⟨by unfold evaluate_speed_violations; rw [h], ?_⟩
  intro stop v
  constructor
  · constructor
    · rintro ⟨hv, hty⟩
      unfold stopViolations at hv
      rcases List.mem_append.mp hv with hv | hv
      · rcases List.mem_append.mp hv with hv | hv
        · exact (mem_yellowCheck_iff _ _ _ _ _ _ _ _).mp hv
        · have := yellowCheck_type _ _ _ _ _ _ _ _ hv
          rw [this] at hty
          simp at hty
      · split at hv
        · rcases List.mem_singleton.mp hv with rfl
          simp at hty
        · exact absurd hv (List.not_mem_nil _)
    · intro hex
      have hv := (mem_yellowCheck_iff rtis signals "SINGLE_YELLOW_SPEED"
        stop.sequence_no stop.stop_start_time 1 rule.single_yellow v).mpr hex
      refine ⟨List.mem_append.mpr (Or.inl (List.mem_append.mpr (Or.inl hv))), ?_⟩
      exact yellowCheck_type _ _ _ _ _ _ _ _ hv
  · constructor
    · rintro ⟨hv, hty⟩
      unfold stopViolations at hv
      rcases List.mem_append.mp hv with hv | hv
      · rcases List.mem_append.mp hv with hv | hv
        · have := yellowCheck_type _ _ _ _ _ _ _ _ hv
          rw [this] at hty
          simp at hty
        · exact (mem_yellowCheck_iff _ _ _ _ _ _ _ _).mp hv
      · split at hv
        · rcases List.mem_singleton.mp hv with rfl
          simp at hty
        · exact absurd hv (List.not_mem_nil _)
    · intro hex
      have hv := (mem_yellowCheck_iff rtis signals "DOUBLE_YELLOW_SPEED"
        stop.sequence_no stop.stop_start_time 2 rule.double_yellow v).mpr hex
      refine ⟨List.mem_append.mpr (Or.inl (List.mem_append.mpr (Or.inr hv))), ?_⟩
      exact yellowCheck_type _ _ _ _ _ _ _ _ hv

/-- Claim C1, witness: the yellow-check characterization applied to a concrete
FREIGHT run. -/
theorem evaluate_speed_violations_yellow_checks_witness :
    lookupRule (asciiUpper "FREIGHT") = some ⟨40, 55⟩ ∧
    (evaluate_speed_violations [⟨900, 0, 0, 70⟩] [⟨1, "S1", "SIGNAL", "Y", 0, 0⟩]
        [(⟨2, "S2", "SIGNAL", "R", 1000, 1012, 12, 0⟩ : StopEvent ℚ)] "FREIGHT" =
      .ok ([(⟨2, "S2", "SIGNAL", "R", 1000, 1012, 12, 0⟩ : StopEvent ℚ)].flatMap
        (stopViolations [⟨900, 0, 0, 70⟩] [⟨1, "S1", "SIGNAL", "Y", 0, 0⟩] ⟨40, 55⟩)) ∧
    ∀ stop : StopEvent ℚ, ∀ v : Violation,
      ((v ∈ stopViolations [⟨900, 0, 0, 70⟩] [⟨1, "S1", "SIGNAL", "Y", 0, 0⟩]
            (⟨40, 55⟩ : SpeedRule) stop ∧
          v.violation_type = "SINGLE_YELLOW_SPEED") ↔
        (∃ sig m, signalBySeq [⟨1, "S1", "SIGNAL", "Y", 0, 0⟩] (stop.sequence_no - 1) =
            some sig ∧
          maxSpeed? (get_speed_window [⟨900, 0, 0, 70⟩] stop.stop_start_time 180) = some m ∧
          (40 : ℚ) < m ∧
          v = ⟨"SINGLE_YELLOW_SPEED", sig.signal_name, sig.emoji, 40,
            some (round2 m), stop.stop_start_time⟩)) ∧
      ((v ∈ stopViolations [⟨900, 0, 0, 70⟩] [⟨1, "S1", "SIGNAL", "Y", 0, 0⟩]
            (⟨40, 55⟩ : SpeedRule) stop ∧
          v.violation_type = "DOUBLE_YELLOW_SPEED") ↔
        (∃ sig m, signalBySeq [⟨1, "S1", "SIGNAL", "Y", 0, 0⟩] (stop.sequence_no - 2) =
            some sig ∧
          maxSpeed? (get_speed_window [⟨900, 0, 0, 70⟩] stop.stop_start_time 180) = some m ∧
          (55 : ℚ) < m ∧
          v = ⟨"DOUBLE_YELLOW_SPEED", sig.signal_name, sig.emoji, 55,
            some (round2 m), stop.stop_start_time⟩))) :=
  ⟨by decide, evaluate_speed_violations_yellow_checks [⟨900, 0, 0, 70⟩]
    [⟨1, "S1", "SIGNAL", "Y", 0, 0⟩]
    [(⟨2, "S2", "SIGNAL", "R", 1000, 1012, 12, 0⟩ : StopEvent ℚ)] "FREIGHT" ⟨40, 55⟩
    (by decide)⟩

/-! ## Claim C6 -/

/-- Claim C6: when the sequence numbers are exactly 1..N, `apply_direction`
with direction `UP` remaps every `sequence_no` to `max − sequence_no + 1`
(max = N), `DOWN` leaves them unchanged, both results are sorted ascending by
the (possibly remapped) `sequence_no`, and each signal's sequence number under
`UP` is N minus its `DOWN` sequence number plus 1. -/
theorem apply_direction_reverses_sequence (signals : List Signal) (N : ℕ)
    (hperm : (signals.map Signal.sequence_no).Perm
      ((List.range' 1 N).map Int.ofNat)) :
    ∃ out_d out_u,
      apply_direction signals "DOWN" = .ok out_d ∧
      apply_direction signals "UP" = .ok out_u ∧
      out_d.Perm signals ∧
      out_u.Perm (signals.map (fun s =>
        { s with sequence_no := (N : ℤ) - s.sequence_no + 1 })) ∧
      out_d.Pairwise (fun a b => a.sequence_no ≤ b.sequence_no) ∧
      out_u.Pairwise (fun a b => a.sequence_no ≤ b.sequence_no) ∧
      ∀ s ∈ signals, s ∈ out_d ∧
        ({ s with sequence_no := (N : ℤ) - s.sequence_no + 1 } : Signal) ∈ out_u := by
  have hdown := apply_direction_valid signals "DOWN" (Or.inr rfl)
  have hup := apply_direction_valid signals "UP" (Or.inl rfl)
  rw [asciiUpper_down] at hdown
  rw [asciiUpper_up] at hup
  simp only [reduceIte] at hdown hup
  rcases Nat.eq_zero_or_pos N with hN | hN
  · subst hN
    have hnil : signals = [] := by
      have := hperm.length_eq
      simpa using this
    subst hnil
    exact ⟨[], [], by simpa using hdown, by simpa using hup, .nil, by simp [List.Perm.nil],
      .nil, .nil, by simp⟩
  · have hmax : (signals.map HasSeq.getSeq).max? = some (N : ℤ) := by
      apply max?_eq_of_mem_of_ub
      · have : Int.ofNat N ∈ (List.range' 1 N).map Int.ofNat := by
          refine List.mem_map.mpr ⟨N, ?_, rfl⟩
          rw [List.mem_range'_1]
          omega
        exact hperm.mem_iff.mpr this
      · intro x hx
        have hx' := hperm.mem_iff.mp hx
        obtain ⟨n, hn, rfl⟩ := List.mem_map.mp hx'
        rw [List.mem_range'_1] at hn
        simp only [Int.ofNat_eq_natCast]
        omega
    rw [hmax] at hup
    simp only [Option.getD_some] at hup
    refine ⟨_, _, hdown, hup, List.mergeSort_perm _ _, List.mergeSort_perm _ _,
      mergeSort_sorted_seq _, mergeSort_sorted_seq _, ?_⟩
    intro s hs
    constructor
    · exact (List.mergeSort_perm signals _).mem_iff.mpr hs
    · refine (List.mergeSort_perm _ _).mem_iff.mpr ?_
      exact List.mem_map.mpr ⟨s, hs, rfl⟩

/-- Claim C6, witness: two signals with sequence numbers 2, 1. -/
theorem apply_direction_reverses_sequence_witness :
    (([⟨2, "A", "SIGNAL", "G", 0, 0⟩, ⟨1, "B", "SIGNAL", "G", 0, 0⟩] :
        List Signal).map Signal.sequence_no).Perm
      ((List.range' 1 2).map Int.ofNat) ∧
    ∃ out_d out_u,
      apply_direction ([⟨2, "A", "SIGNAL", "G", 0, 0⟩, ⟨1, "B", "SIGNAL", "G", 0, 0⟩] :
        List Signal) "DOWN" = .ok out_d ∧
      apply_direction ([⟨2, "A", "SIGNAL", "G", 0, 0⟩, ⟨1, "B", "SIGNAL", "G", 0, 0⟩] :
        List Signal) "UP" = .ok out_u ∧
      out_d.Perm [⟨2, "A", "SIGNAL", "G", 0, 0⟩, ⟨1, "B", "SIGNAL", "G", 0, 0⟩] ∧
      out_u.Perm (([⟨2, "A", "SIGNAL", "G", 0, 0⟩, ⟨1, "B", "SIGNAL", "G", 0, 0⟩] :
        List Signal).map (fun s =>
          { s with sequence_no := ((2 : ℕ) : ℤ) - s.sequence_no + 1 })) ∧
      out_d.Pairwise (fun a b => a.sequence_no ≤ b.sequence_no) ∧
      out_u.Pairwise (fun a b => a.sequence_no ≤ b.sequence_no) ∧
      ∀ s ∈ ([⟨2, "A", "SIGNAL", "G", 0, 0⟩, ⟨1, "B", "SIGNAL", "G", 0, 0⟩] : List Signal),
        s ∈ out_d ∧
        ({ s with sequence_no := ((2 : ℕ) : ℤ) - s.sequence_no + 1 } : Signal) ∈ out_u :=
  ⟨by decide, apply_direction_reverses_sequence
    [⟨2, "A", "SIGNAL", "G", 0, 0⟩, ⟨1, "B", "SIGNAL", "G", 0, 0⟩] 2 (by decide)⟩

/-! ## Claim C5 -/

theorem resolve_row_seq (ohe_df : List OheRow) (fsd_df : Option (List FsdRow))
    (row : SignalMasterRow) (y : ResolvedSignal)
    (h : resolve_row ohe_df fsd_df row = .ok y) :
    y.sequence_no = row.SEQUENCE_NO := by
  unfold resolve_row at h
  dsimp only at h
  split at h
  · injection h with h
    subst h
    rfl
  · exact absurd h (by simp)

theorem resolve_seq_from_file (master : List SignalMasterRow) (ohe : List OheRow)
    (fsd : Option (List FsdRow)) (out : List ResolvedSignal)
    (h : resolve_signal_coordinates master ohe fsd = .ok out) :
    out.map ResolvedSignal.sequence_no = master.map SignalMasterRow.SEQUENCE_NO := by
  induction master generalizing out with
  | nil =>
    unfold resolve_signal_coordinates at h
    simp only [List.mapM_nil] at h
    injection h with h
    subst h
    rfl
  | cons row rest ih =>
    unfold resolve_signal_coordinates at h ih
    rw [List.mapM_cons] at h
    rcases hy : resolve_row ohe fsd row with e | y <;> rw [hy] at h
    · simp [Bind.bind, Except.bind] at h
    · rcases hys : rest.mapM (resolve_row ohe fsd) with e | ys <;> rw [hys] at h
      · simp [Bind.bind, Except.bind] at h
      · simp only [Bind.bind, Except.bind, pure, Except.pure] at h
        injection h with h
        subst h
        simp only [List.map_cons, ih ys hys, resolve_row_seq _ _ _ _ hy]

theorem enumFrom_seq (rows : List RawSignalRow) :
    ∀ k, (List.enumFrom k rows).map (fun p => (Int.ofNat p.1) + 1) =
      (List.range' (k + 1) rows.length).map Int.ofNat := by
  induction rows with
  | nil => intro k; rfl
  | cons r rest ih =>
    intro k
    simp only [List.enumFrom_cons, List.length_cons, List.range'_succ, List.map_cons, ih]
    simp [Int.ofNat_eq_natCast]

/-- Claim C5, counterexample: the builder in `src` does not assign
`sequence_no` by 1-based file position — it takes the master file's
`SEQUENCE_NO` field (`signal_mapper.py:35,62`).  A single-row master file with
`SEQUENCE_NO = 7` yields a signal with `sequence_no = 7`, not 1. -/
theorem build_signal_context_seq_not_positional :
    build_signal_context [⟨"S1", "ST", "HOME", "O1", 7⟩] [⟨"O1", 0, 0⟩] none "DOWN" =
      .ok [⟨"S1", "ST", "HOME", 7, 0, 0⟩] ∧ (7 : ℤ) ≠ 1 :=
  ⟨rfl, by decide⟩

/-- Claim C5, amended: the `src` signal-context builder carries each signal's
`sequence_no` through from the master file's `SEQUENCE_NO` field (in file
order) rather than assigning 1-based positions, and performs no
classification; the spec's SignalContextBuilder (modelled here, absent from
`src`) assigns `sequence_no = 1..N` in file order and classifies by
first-match over the priority-ordered keyword rules on the uppercased name —
level-crossing → LEVEL_CROSSING, neutral-section → NEUTRAL_SECTION, "HOME" →
HOME, starter/advance → STARTER, distant → DISTANT, else SIGNAL — with a
display glyph in 1:1 correspondence with the asset type. -/
theorem signal_context_classification :
    (∀ (master : List SignalMasterRow) (ohe : List OheRow) (fsd : Option (List FsdRow))
        (out : List ResolvedSignal),
      resolve_signal_coordinates master ohe fsd = .ok out →
        out.map ResolvedSignal.sequence_no = master.map SignalMasterRow.SEQUENCE_NO) ∧
    (∀ (kw : KeywordRules) (rows : List RawSignalRow),
      (classifySignals kw rows).map Signal.sequence_no =
        (List.range' 1 rows.length).map Int.ofNat) ∧
    (∀ (kw : KeywordRules) (name : String),
      (classify_signal kw name = "LEVEL_CROSSING" ↔
        kw.levelCrossing (asciiUpper name) = true) ∧
      (classify_signal kw name = "NEUTRAL_SECTION" ↔
        (kw.levelCrossing (asciiUpper name) = false ∧
          kw.neutralSection (asciiUpper name) = true)) ∧
      (classify_signal kw name = "HOME" ↔
        (kw.levelCrossing (asciiUpper name) = false ∧
          kw.neutralSection (asciiUpper name) = false ∧
          strContains (asciiUpper name) "HOME" = true)) ∧
      (classify_signal kw name = "STARTER" ↔
        (kw.levelCrossing (asciiUpper name) = false ∧
          kw.neutralSection (asciiUpper name) = false ∧
          strContains (asciiUpper name) "HOME" = false ∧
          kw.starter (asciiUpper name) = true)) ∧
      (classify_signal kw name = "DISTANT" ↔
        (kw.levelCrossing (asciiUpper name) = false ∧
          kw.neutralSection (asciiUpper name) = false ∧
          strContains (asciiUpper name) "HOME" = false ∧
          kw.starter (asciiUpper name) = false ∧
          kw.distant (asciiUpper name) = true)) ∧
      (classify_signal kw name = "SIGNAL" ↔
        (kw.levelCrossing (asciiUpper name) = false ∧
          kw.neutralSection (asciiUpper name) = false ∧
          strContains (asciiUpper name) "HOME" = false ∧
          kw.starter (asciiUpper name) = false ∧
          kw.distant (asciiUpper name) = false))) ∧
    ((["LEVEL_CROSSING", "NEUTRAL_SECTION", "HOME", "STARTER", "DISTANT", "SIGNAL"].map
        asset_glyph).Nodup ∧
      (∀ (kw : KeywordRules) (name : String), classify_signal kw name ∈
        ["LEVEL_CROSSING", "NEUTRAL_SECTION", "HOME", "STARTER", "DISTANT", "SIGNAL"]) ∧
      ∀ (kw : KeywordRules) (rows : List RawSignalRow), ∀ s ∈ classifySignals kw rows,
        s.emoji = asset_glyph s.asset_type) := by
  refine ⟨resolve_seq_from_file, ?_, ?_, by decide, ?_, ?_⟩
  · intro kw rows
    unfold classifySignals
    rw [List.map_map]
    have h2 : (Signal.sequence_no ∘ fun p : ℕ × RawSignalRow =>
        (⟨(p.1 : ℤ) + 1, p.2.name, classify_signal kw p.2.name,
          asset_glyph (classify_signal kw p.2.name), p.2.latitude, p.2.longitude⟩ : Signal)) =
        (fun p : ℕ × RawSignalRow => Int.ofNat p.1 + 1) := by
      funext p
      simp [Int.ofNat_eq_natCast]
    rw [h2]
    have h3 : List.enum rows = List.enumFrom 0 rows := rfl
    rw [h3, enumFrom_seq rows 0]
  · intro kw name
    cases h1 : kw.levelCrossing (asciiUpper name) <;>
      cases h2 : kw.neutralSection (asciiUpper name) <;>
      cases h3 : strContains (asciiUpper name) "HOME" <;>
      cases h4 : kw.starter (asciiUpper name) <;>
      cases h5 : kw.distant (asciiUpper name) <;>
      simp [classify_signal, h1, h2, h3, h4, h5]
  · intro kw name
    unfold classify_signal
    dsimp only
    split_ifs <;> simp
  · intro kw rows s hs
    obtain ⟨p, hp, rfl⟩ := List.mem_map.mp hs
    rfl

/-- Claim C5, witness: the sequence-provenance component applied to a concrete
one-row master file. -/
theorem signal_context_classification_witness :
    resolve_signal_coordinates [⟨"S1", "ST", "HOME", "O1", 7⟩] [⟨"O1", 0, 0⟩] none =
      .ok [⟨"S1", "ST", "HOME", 7, 0, 0⟩] ∧
    ([(⟨"S1", "ST", "HOME", 7, 0, 0⟩ : ResolvedSignal)]).map ResolvedSignal.sequence_no =
      ([⟨"S1", "ST", "HOME", "O1", 7⟩] : List SignalMasterRow).map
        SignalMasterRow.SEQUENCE_NO :=
  ⟨rfl, signal_context_classification.1 [⟨"S1", "ST", "HOME", "O1", 7⟩] [⟨"O1", 0, 0⟩]
    none [⟨"S1", "ST", "HOME", 7, 0, 0⟩] rfl⟩

/-! ## Segmentation lemmas -/

theorem groupLoop_append {β : Type} (p : β → Bool) :
    ∀ (l : List β) (groups : List (List β)) (current : List β),
      groupLoop p groups current l = groups ++ groupLoop p [] current l := by
  intro l
  induction l with
  | nil =>
    intro groups current
    cases hc : current.isEmpty <;> simp [groupLoop, hc]
  | cons row rest ih =>
    intro groups current
    rw [groupLoop, groupLoop]
    cases hp : p row
    · cases hc : current.isEmpty
      · simp only [hp, Bool.false_eq_true, reduceIte, hc, List.nil_append]
        rw [ih (groups ++ [current]) [], ih [current] [], List.append_assoc]
      · simp only [hp, Bool.false_eq_true, reduceIte, hc]
        rw [ih groups []]
    · simp only [hp, reduceIte]
      rw [ih groups (current ++ [row]), ih [] (current ++ [row])]

theorem groupLoop_run_spec {β : Type} (p : β → Bool) :
    ∀ (l : List β),
      groupLoop p [] [] l = maximalRuns p l ∧
      ∀ current, current ≠ [] →
        groupLoop p [] current l =
          (current ++ l.takeWhile p) :: maximalRuns p (l.dropWhile p) := by
  intro l
  induction l with
  | nil =>
    refine ⟨rfl, ?_⟩
    intro current hcur
    have hc : current.isEmpty = false := by simpa using hcur
    simp [groupLoop, hc, maximalRuns]
  | cons row rest ih =>
    constructor
    · rw [groupLoop]
      cases hp : p row
      · simp only [hp, Bool.false_eq_true, reduceIte, List.isEmpty_nil]
        rw [ih.1, maximalRuns, if_neg (by simp [hp])]
      · simp only [hp, reduceIte, List.nil_append]
        rw [ih.2 [row] (by simp), maximalRuns, if_pos hp]
        simp
    · intro current hcur
      have hc : current.isEmpty = false := by simpa using hcur
      rw [groupLoop]
      cases hp : p row
      · simp only [hp, Bool.false_eq_true, reduceIte, hc, List.nil_append]
        rw [groupLoop_append p rest [current] [], ih.1,
          List.takeWhile_cons_of_neg (by simp [hp]),
          List.dropWhile_cons_of_neg (by simp [hp]), maximalRuns, if_neg (by simp [hp])]
        simp
      · simp only [hp, reduceIte]
        rw [ih.2 (current ++ [row]) (by simp), List.takeWhile_cons_of_pos hp,
          List.dropWhile_cons_of_pos hp, List.append_assoc]
        simp

theorem stop_groups_eq_maximalRuns (stop_speed_threshold : ℚ) (rtis : List TelemetryPoint) :
    stop_groups stop_speed_threshold rtis =
      maximalRuns (fun r => decide (r.speed ≤ stop_speed_threshold)) rtis :=
  (groupLoop_run_spec _ rtis).1

theorem maximalRuns_runs {β : Type} (p : β → Bool) (l : List β) :
    ∀ run ∈ maximalRuns p l, run ≠ [] ∧ ∀ x ∈ run, p x = true := by
  induction l using maximalRuns.induct p with
  | case1 => simp [maximalRuns]
  | case2 x xs hp ih =>
    intro run hrun
    rw [maximalRuns, if_pos hp] at hrun
    rcases List.mem_cons.mp hrun with rfl | hrun
    · refine ⟨by simp, ?_⟩
      intro y hy
      rcases List.mem_cons.mp hy with rfl | hy
      · exact hp
      · exact List.mem_takeWhile_imp hy
    · exact ih run hrun
  | case3 x xs hp ih =>
    intro run hrun
    rw [maximalRuns, if_neg hp] at hrun
    exact ih run hrun

theorem takeWhile_append_filter_dropWhile {β : Type} (p : β → Bool) :
    ∀ (l : List β), l.takeWhile p ++ (l.dropWhile p).filter p = l.filter p := by
  intro l
  induction l with
  | nil => rfl
  | cons x xs ih =>
    by_cases hp : p x
    · rw [List.takeWhile_cons_of_pos hp, List.dropWhile_cons_of_pos hp,
        List.filter_cons_of_pos hp, List.cons_append, ih]
    · rw [List.takeWhile_cons_of_neg hp, List.dropWhile_cons_of_neg hp,
        List.filter_cons_of_neg hp, List.nil_append]

theorem maximalRuns_flatten {β : Type} (p : β → Bool) (l : List β) :
    (maximalRuns p l).flatten = l.filter p := by
  induction l using maximalRuns.induct p with
  | case1 => simp [maximalRuns]
  | case2 x xs hp ih =>
    rw [maximalRuns, if_pos hp, List.flatten_cons, ih, List.cons_append,
      takeWhile_append_filter_dropWhile, List.filter_cons_of_pos hp]
  | case3 x xs hp ih =>
    rw [maximalRuns, if_neg hp, ih, List.filter_cons_of_neg hp]

theorem maximalRuns_mem_of_mem {β : Type} (p : β → Bool) (l : List β)
    (r : List β) (hr : r ∈ maximalRuns p l) (y : β) (hy : y ∈ r) : y ∈ l := by
  have : y ∈ (maximalRuns p l).flatten := List.mem_flatten.mpr ⟨r, hr, hy⟩
  rw [maximalRuns_flatten] at this
  exact (List.mem_filter.mp this).1

theorem maximalRuns_pairwise {β : Type} (p : β → Bool) {R : β → β → Prop}
    (l : List β) (h : l.Pairwise R) :
    (maximalRuns p l).Pairwise (fun r1 r2 => ∀ x ∈ r1, ∀ y ∈ r2, R x y) := by
  induction l using maximalRuns.induct p with
  | case1 => simp [maximalRuns]
  | case2 x xs hp ih =>
    rw [maximalRuns, if_pos hp]
    rcases List.pairwise_cons.mp h with ⟨hx, hxs⟩
    have hxs' : (xs.takeWhile p ++ xs.dropWhile p).Pairwise R := by
      rw [List.takeWhile_append_dropWhile]
      exact hxs
    rcases List.pairwise_append.mp hxs' with ⟨-, hdrop, hcross⟩
    refine List.pairwise_cons.mpr ⟨?_, ih hdrop⟩
    intro r2 hr2 a ha y hy
    have hy_drop : y ∈ xs.dropWhile p := maximalRuns_mem_of_mem p _ r2 hr2 y hy
    rcases List.mem_cons.mp ha with rfl | ha
    · refine hx y ?_
      have := List.dropWhile_sublist (l := xs) p
      exact this.mem hy_drop
    · exact hcross a ha y hy_drop
  | case3 x xs hp ih =>
    rw [maximalRuns, if_neg hp]
    exact ih (List.pairwise_cons.mp h).2

/-- `(end - start).total_seconds()` of a dwell run (`stop_detector.py:63-65`),
0 for the degenerate empty run. -/
def runDuration (run : List TelemetryPoint) : ℤ :=
  match run.head?, run.getLast? with
  | some first, some lastP => lastP.timestamp - first.timestamp
  | _, _ => 0

theorem filterMap_eq_filterMap_filter {γ δ : Type} (f : γ → Option δ) (keep : γ → Bool)
    (l : List γ) (h : ∀ a ∈ l, keep a = false → f a = none) :
    l.filterMap f = (l.filter keep).filterMap f := by
  induction l with
  | nil => rfl
  | cons x xs ih =>
    have ih' := ih (fun a ha => h a (List.mem_cons_of_mem _ ha))
    cases hk : keep x
    · rw [List.filter_cons_of_neg (by simp [hk]), List.filterMap_cons,
        h x (List.mem_cons_self _ _) hk, ih']
    · rw [List.filter_cons_of_pos (by simp [hk]), List.filterMap_cons, List.filterMap_cons,
        ih']

theorem run_to_event_none_of_short {α : Type} [LinearOrderedField α] [FloorRing α]
    (dist : ℚ → ℚ → ℚ → ℚ → α) (signals : List Signal) (minD maxR : ℤ)
    (run : List TelemetryPoint) (h : ¬ minD ≤ runDuration run) :
    run_to_event dist signals minD maxR run = none := by
  unfold runDuration at h
  unfold run_to_event
  split
  · rename_i first lastP heq1 heq2
    simp only [heq1, heq2] at h
    rw [if_pos (by omega)]
  · rfl

theorem run_to_event_some_spec {α : Type} [LinearOrderedField α] [FloorRing α]
    (dist : ℚ → ℚ → ℚ → ℚ → α) (signals : List Signal) (minD maxR : ℤ)
    (run : List TelemetryPoint) (e : StopEvent α)
    (h : run_to_event dist signals minD maxR run = some e) :
    ∃ first lastP sig d,
      run.head? = some first ∧ run.getLast? = some lastP ∧
      ¬ (lastP.timestamp - first.timestamp < minD) ∧
      nearestLoop (fun s => dist (mean_lat run) (mean_lon run) s.latitude s.longitude)
        none signals = some (sig, d) ∧
      ¬ d > (maxR : α) ∧
      ¬ (sig.asset_type = "LEVEL_CROSSING" ∨ sig.asset_type = "NEUTRAL_SECTION") ∧
      e = ⟨sig.sequence_no, sig.signal_name, sig.asset_type, sig.emoji, first.timestamp,
        lastP.timestamp, lastP.timestamp - first.timestamp, round2 d⟩ := by
  unfold run_to_event at h
  split at h
  · rename_i first lastP heq1 heq2
    by_cases hdur : lastP.timestamp - first.timestamp < minD
    · rw [if_pos hdur] at h
      exact absurd h (by simp)
    · rw [if_neg hdur] at h
      cases hn : nearestLoop (fun s => dist (mean_lat run) (mean_lon run)
          s.latitude s.longitude) none signals with
      | none => rw [hn] at h; exact absurd h (by simp)
      | some pair =>
        obtain ⟨sig, d⟩ := pair
        rw [hn] at h
        dsimp only at h
        by_cases hrad : d > (maxR : α)
        · rw [if_pos hrad] at h
          exact absurd h (by simp)
        · rw [if_neg hrad] at h
          by_cases hexc : sig.asset_type = "LEVEL_CROSSING" ∨
              sig.asset_type = "NEUTRAL_SECTION"
          · rw [if_pos hexc] at h
            exact absurd h (by simp)
          · rw [if_neg hexc] at h
            injection h with h
            exact ⟨first, lastP, sig, d, heq1, heq2, hdur, rfl, hrad, hexc, h.symm⟩
  · exact absurd h (by simp)


/-! ## Nearest-signal scan lemmas -/

theorem nearestLoop_acc_spec {α : Type} [LinearOrder α] (D : Signal → α) :
    ∀ (l : List Signal) (s0 : Signal) (d0 : α) (s : Signal) (d : α),
      nearestLoop D (some (s0, d0)) l = some (s, d) →
      (s = s0 ∧ d = d0 ∧ ∀ x ∈ l, d0 ≤ D x) ∨
      (d = D s ∧ d < d0 ∧ ∃ l1 l2, l = l1 ++ s :: l2 ∧
        (∀ x ∈ l1, d < D x) ∧ (∀ x ∈ l2, d ≤ D x)) := by
  intro l
  induction l with
  | nil =>
    intro s0 d0 s d h
    rw [nearestLoop] at h
    simp only [Option.some.injEq, Prod.mk.injEq] at h
    left
    exact ⟨h.1.symm, h.2.symm, by simp⟩
  | cons sig rest ih =>
    intro s0 d0 s d h
    rw [nearestLoop] at h
    by_cases hlt : D sig < d0
    · rw [if_pos hlt] at h
      rcases ih sig (D sig) s d h with ⟨rfl, rfl, hub⟩ | ⟨hd, hlt2, l1, l2, heq, h1, h2⟩
      · exact Or.inr ⟨rfl, hlt, [], rest, rfl, by simp, hub⟩
      · refine Or.inr ⟨hd, lt_trans hlt2 hlt, sig :: l1, l2, by rw [heq]; rfl, ?_, h2⟩
        intro x hx
        rcases List.mem_cons.mp hx with rfl | hx
        · exact hlt2
        · exact h1 x hx
    · rw [if_neg hlt] at h
      rcases ih s0 d0 s d h with ⟨rfl, rfl, hub⟩ | ⟨hd, hlt2, l1, l2, heq, h1, h2⟩
      · refine Or.inl ⟨rfl, rfl, ?_⟩
        intro x hx
        rcases List.mem_cons.mp hx with rfl | hx
        · exact not_lt.mp hlt
        · exact hub x hx
      · refine Or.inr ⟨hd, hlt2, sig :: l1, l2, by rw [heq]; rfl, ?_, h2⟩
        intro x hx
        rcases List.mem_cons.mp hx with rfl | hx
        · exact lt_of_lt_of_le hlt2 (not_lt.mp hlt)
        · exact h1 x hx

theorem nearestLoop_spec {α : Type} [LinearOrder α] (D : Signal → α)
    (signals : List Signal) (s : Signal) (d : α)
    (h : nearestLoop D none signals = some (s, d)) :
    d = D s ∧ ∃ l1 l2, signals = l1 ++ s :: l2 ∧
      (∀ x ∈ l1, d < D x) ∧ (∀ x ∈ l2, d ≤ D x) := by
  cases signals with
  | nil => rw [nearestLoop] at h; exact absurd h (by simp)
  | cons sig rest =>
    rw [nearestLoop] at h
    rcases nearestLoop_acc_spec D rest sig (D sig) s d h with
      ⟨rfl, rfl, hub⟩ | ⟨hd, hlt2, l1, l2, heq, h1, h2⟩
    · exact ⟨rfl, [], rest, rfl, by simp, hub⟩
    · refine ⟨hd, sig :: l1, l2, by rw [heq]; rfl, ?_, h2⟩
      intro x hx
      rcases List.mem_cons.mp hx with rfl | hx
      · exact hlt2
      · exact h1 x hx

/-! ## Rounding bound lemmas -/

theorem rne_le_int {α : Type} [LinearOrderedField α] [FloorRing α] (y : α) (n : ℤ)
    (h : y ≤ n) : rne y ≤ n := by
  unfold rne
  split
  · rename_i htie
    have hyn : y ≠ (n : α) := by
      intro heq
      rw [heq, Int.fract_intCast] at htie
      norm_num at htie
    have hlt : y < n := lt_of_le_of_ne h hyn
    have h1 : ((2 * round (y / 2) : ℤ) : α) ≤ y + 1 := by
      rw [round_eq]
      push_cast
      have := Int.floor_le (y / 2 + 1 / 2)
      linarith
    have h3 : (2 * round (y / 2) : ℤ) < n + 1 := by
      have h2 : ((2 * round (y / 2) : ℤ) : α) < ((n + 1 : ℤ) : α) := by
        push_cast
        push_cast at h1
        linarith
      exact_mod_cast h2
    omega
  · rw [round_eq]
    have hmono : ⌊y + 1 / 2⌋ ≤ ⌊(n : α) + 1 / 2⌋ := Int.floor_le_floor (by linarith)
    have hhalf : ⌊(1 / 2 : α)⌋ = 0 := by
      rw [Int.floor_eq_zero_iff]
      constructor <;> norm_num
    rw [Int.floor_int_add, hhalf] at hmono
    omega

theorem round2_le_int {α : Type} [LinearOrderedField α] [FloorRing α] (x : α) (m : ℤ)
    (h : x ≤ (m : α)) : round2 x ≤ (m : α) := by
  unfold round2
  rw [div_le_iff₀ (by norm_num : (0 : α) < 100)]
  have h1 : x * 100 ≤ ((m * 100 : ℤ) : α) := by
    push_cast
    nlinarith
  have h2 := rne_le_int (x * 100) (m * 100) (by exact_mod_cast h1)
  calc ((rne (x * 100) : ℤ) : α) ≤ ((m * 100 : ℤ) : α) := by exact_mod_cast h2
    _ = (m : α) * 100 := by push_cast; ring

/-! ## Claim C2 -/

/-- Claim C2: every StopEvent emitted by `detect_signal_stops` has duration at
least `min_stop_duration_sec`, references a matched signal whose `asset_type`
is neither LEVEL_CROSSING nor NEUTRAL_SECTION, and its recorded
centroid-to-signal distance is the two-decimal rounding of a true distance
that is at most `max_signal_radius_m` — and the recorded value itself is at
most `max_signal_radius_m`. -/
theorem detect_signal_stops_event_invariants {α : Type} [LinearOrderedField α]
    [FloorRing α] (dist : ℚ → ℚ → ℚ → ℚ → α) (rtis : List TelemetryPoint)
    (signals : List Signal) (stop_speed_threshold : ℚ)
    (min_stop_duration_sec max_signal_radius_m : ℤ) (e : StopEvent α)
    (he : e ∈ detect_signal_stops dist rtis signals stop_speed_threshold
      min_stop_duration_sec max_signal_radius_m) :
    min_stop_duration_sec ≤ e.stop_duration_sec ∧
    e.asset_type ≠ "LEVEL_CROSSING" ∧ e.asset_type ≠ "NEUTRAL_SECTION" ∧
    (∃ d : α, d ≤ (max_signal_radius_m : α) ∧ e.distance_to_asset_m = round2 d) ∧
    e.distance_to_asset_m ≤ (max_signal_radius_m : α) := by
  obtain ⟨run, hrun, hsome⟩ := List.mem_filterMap.mp he
  obtain ⟨first, lastP, sig, d, hh, hl, hdur, hn, hrad, hexc, rfl⟩ :=
    run_to_event_some_spec _ _ _ _ _ _ hsome
  push_neg at hexc
  have hd : d ≤ (max_signal_radius_m : α) := not_lt.mp hrad
  exact ⟨by dsimp only; omega, hexc.1, hexc.2, ⟨d, hd, rfl⟩, round2_le_int d _ hd⟩

/-- Claim C2, witness: a 12-second all-stopped run matched to a HOME signal by
a constant-zero distance function. -/
theorem detect_signal_stops_event_invariants_witness :
    (⟨1, "S", "HOME", "H", 0, 12, 12, 0⟩ : StopEvent ℚ) ∈
      detect_signal_stops (fun _ _ _ _ => (0 : ℚ))
        [⟨0, 1, 2, 0⟩, ⟨6, 1, 2, 0⟩, ⟨12, 1, 2, 0⟩] [⟨1, "S", "HOME", "H", 1, 2⟩] 0 10 150 ∧
    ((10 : ℤ) ≤ (⟨1, "S", "HOME", "H", 0, 12, 12, 0⟩ : StopEvent ℚ).stop_duration_sec ∧
    (⟨1, "S", "HOME", "H", 0, 12, 12, 0⟩ : StopEvent ℚ).asset_type ≠ "LEVEL_CROSSING" ∧
    (⟨1, "S", "HOME", "H", 0, 12, 12, 0⟩ : StopEvent ℚ).asset_type ≠ "NEUTRAL_SECTION" ∧
    (∃ d : ℚ, d ≤ ((150 : ℤ) : ℚ) ∧
      (⟨1, "S", "HOME", "H", 0, 12, 12, 0⟩ : StopEvent ℚ).distance_to_asset_m = round2 d) ∧
    (⟨1, "S", "HOME", "H", 0, 12, 12, 0⟩ : StopEvent ℚ).distance_to_asset_m ≤
      ((150 : ℤ) : ℚ)) :=
  ⟨by decide, detect_signal_stops_event_invariants (fun _ _ _ _ => (0 : ℚ))
    [⟨0, 1, 2, 0⟩, ⟨6, 1, 2, 0⟩, ⟨12, 1, 2, 0⟩] [⟨1, "S", "HOME", "H", 1, 2⟩] 0 10 150
    ⟨1, "S", "HOME", "H", 0, 12, 12, 0⟩ (by decide)⟩

/-! ## Claim C3 -/

theorem nearestLoop_ne_none {α : Type} [LinearOrder α] (D : Signal → α) :
    ∀ (l : List Signal) (acc : Signal × α), nearestLoop D (some acc) l ≠ none := by
  intro l
  induction l with
  | nil =>
    intro acc h
    rw [nearestLoop] at h
    exact absurd h (by simp)
  | cons sig rest ih =>
    intro acc h
    obtain ⟨s0, d0⟩ := acc
    rw [nearestLoop] at h
    by_cases hlt : D sig < d0
    · rw [if_pos hlt] at h
      exact ih _ h
    · rw [if_neg hlt] at h
      exact ih _ h

/-- Claim C3: with signals sorted ascending by `sequence_no`, the
nearest-signal scan of `detect_signal_stops` run with the haversine distance
(spherical earth radius 6,371,000 m) selects, for any dwell run's centroid, a
signal at minimum haversine distance, breaking distance ties by the lowest
sequence number (first minimum in ascending sequence order); every emitted
StopEvent carries that signal's identity and the minimum distance rounded to
two decimals. -/
theorem detect_signal_stops_nearest_signal (rtis : List TelemetryPoint)
    (signals : List Signal) (stop_speed_threshold : ℚ)
    (min_stop_duration_sec max_signal_radius_m : ℤ)
    (hsorted : signals.Pairwise (fun a b => a.sequence_no ≤ b.sequence_no)) :
    (∀ run : List TelemetryPoint, signals ≠ [] →
      ∃ sig d, nearestLoop (fun s => haversineDistQ (mean_lat run) (mean_lon run)
          s.latitude s.longitude) none signals = some (sig, d) ∧
        sig ∈ signals ∧
        d = haversineDistQ (mean_lat run) (mean_lon run) sig.latitude sig.longitude ∧
        (∀ s' ∈ signals,
          d ≤ haversineDistQ (mean_lat run) (mean_lon run) s'.latitude s'.longitude) ∧
        (∀ s' ∈ signals,
          haversineDistQ (mean_lat run) (mean_lon run) s'.latitude s'.longitude = d →
            sig.sequence_no ≤ s'.sequence_no)) ∧
    (∀ e ∈ detect_signal_stops haversineDistQ rtis signals stop_speed_threshold
        min_stop_duration_sec max_signal_radius_m,
      ∃ run ∈ stop_groups stop_speed_threshold rtis, ∃ sig d,
        nearestLoop (fun s => haversineDistQ (mean_lat run) (mean_lon run)
          s.latitude s.longitude) none signals = some (sig, d) ∧
        e.sequence_no = sig.sequence_no ∧ e.signal_name = sig.signal_name ∧
        e.asset_type = sig.asset_type ∧ e.emoji = sig.emoji ∧
        e.distance_to_asset_m = round2 d) := by
  have key : ∀ run sig d,
      nearestLoop (fun s => haversineDistQ (mean_lat run) (mean_lon run)
        s.latitude s.longitude) none signals = some (sig, d) →
      sig ∈ signals ∧
      d = haversineDistQ (mean_lat run) (mean_lon run) sig.latitude sig.longitude ∧
      (∀ s' ∈ signals,
        d ≤ haversineDistQ (mean_lat run) (mean_lon run) s'.latitude s'.longitude) ∧
      (∀ s' ∈ signals,
        haversineDistQ (mean_lat run) (mean_lon run) s'.latitude s'.longitude = d →
          sig.sequence_no ≤ s'.sequence_no) := by
    intro run sig d hn
    obtain ⟨hd, l1, l2, heq, h1, h2⟩ := nearestLoop_spec _ signals sig d hn
    have hmem : sig ∈ signals := by
      rw [heq]
      exact List.mem_append_right _ (List.mem_cons_self _ _)
    have hsorted' := hsorted
    rw [heq] at hsorted'
    have htail := (List.pairwise_append.mp hsorted').2.1
    have hseq : ∀ y ∈ l2, sig.sequence_no ≤ y.sequence_no :=
      (List.pairwise_cons.mp htail).1
    refine ⟨hmem, hd, ?_, ?_⟩
    · intro s' hs'
      rw [heq] at hs'
      rcases List.mem_append.mp hs' with hs' | hs'
      · exact le_of_lt (h1 s' hs')
      · rcases List.mem_cons.mp hs' with rfl | hs'
        · exact le_of_eq hd
        · exact h2 s' hs'
    · intro s' hs' hds'
      rw [heq] at hs'
      rcases List.mem_append.mp hs' with hs' | hs'
      · exact absurd hds'.symm (ne_of_lt (h1 s' hs'))
      · rcases List.mem_cons.mp hs' with rfl | hs'
        · exact le_refl _
        · exact hseq s' hs'
  constructor
  · intro run hne
    rcases hs : nearestLoop (fun s => haversineDistQ (mean_lat run) (mean_lon run)
        s.latitude s.longitude) none signals with _ | pair
    · cases signals with
      | nil => exact absurd rfl hne
      | cons sig0 rest =>
        rw [nearestLoop] at hs
        exact absurd hs (nearestLoop_ne_none _ _ _)
    · obtain ⟨sig, d⟩ := pair
      obtain ⟨hmem, hd, hmin, htie⟩ := key run sig d hs
      exact ⟨sig, d, rfl, hmem, hd, hmin, htie⟩
  · intro e he
    obtain ⟨run, hrun, hsome⟩ := List.mem_filterMap.mp he
    obtain ⟨first, lastP, sig, d, hh, hl, hdur, hn, hrad, hexc, rfl⟩ :=
      run_to_event_some_spec _ _ _ _ _ _ hsome
    exact ⟨run, hrun, sig, d, hn, rfl, rfl, rfl, rfl, rfl⟩

theorem haversineDistQ_zero : haversineDistQ 0 0 0 0 = 0 := by
  unfold haversineDistQ haversine_distance radians atan2
  norm_num
  have h1 : (⟨1, 0⟩ : ℂ) = 1 := by
    apply Complex.ext <;> simp
  rw [h1, Complex.arg_one]

theorem round2_zero {α : Type} [LinearOrderedField α] [FloorRing α] :
    round2 (0 : α) = 0 := by
  unfold round2 rne
  norm_num

theorem detect_stops_real_example :
    detect_signal_stops haversineDistQ [⟨0, 0, 0, 0⟩, ⟨12, 0, 0, 0⟩]
      [⟨1, "S", "HOME", "H", 0, 0⟩] 0 10 150 =
    [⟨1, "S", "HOME", "H", 0, 12, 12, 0⟩] := by
  have hml : mean_lat [⟨0, 0, 0, 0⟩, ⟨12, 0, 0, 0⟩] = 0 := by decide
  have hmlo : mean_lon [⟨0, 0, 0, 0⟩, ⟨12, 0, 0, 0⟩] = 0 := by decide
  have hgroups : stop_groups 0 [⟨0, 0, 0, 0⟩, ⟨12, 0, 0, 0⟩] =
      [[⟨0, 0, 0, 0⟩, ⟨12, 0, 0, 0⟩]] := by decide
  have hnl : nearestLoop (fun s => haversineDistQ
      (mean_lat [⟨0, 0, 0, 0⟩, ⟨12, 0, 0, 0⟩]) (mean_lon [⟨0, 0, 0, 0⟩, ⟨12, 0, 0, 0⟩])
      s.latitude s.longitude) none [⟨1, "S", "HOME", "H", 0, 0⟩] =
      some (⟨1, "S", "HOME", "H", 0, 0⟩, (0 : ℝ)) := by
    rw [nearestLoop, nearestLoop]
    dsimp only
    rw [hml, hmlo, haversineDistQ_zero]
  have hrun : run_to_event haversineDistQ [⟨1, "S", "HOME", "H", 0, 0⟩] 10 150
      [⟨0, 0, 0, 0⟩, ⟨12, 0, 0, 0⟩] = some ⟨1, "S", "HOME", "H", 0, 12, 12, 0⟩ := by
    unfold run_to_event
    dsimp only [List.head?, List.getLast?, List.getLast]
    rw [if_neg (by norm_num), hnl]
    dsimp only
    rw [if_neg (by norm_num), if_neg (by simp), round2_zero]
    norm_num
  unfold detect_signal_stops
  rw [hgroups]
  simp [List.filterMap_cons, hrun]

/-- Claim C3, witness: a two-point dwell at the origin matched against a
single HOME signal at the origin by the real haversine distance. -/
theorem detect_signal_stops_nearest_signal_witness :
    ([⟨1, "S", "HOME", "H", 0, 0⟩] : List Signal).Pairwise
      (fun a b => a.sequence_no ≤ b.sequence_no) ∧
    ([⟨1, "S", "HOME", "H", 0, 0⟩] : List Signal) ≠ [] ∧
    (∃ sig d, nearestLoop (fun s => haversineDistQ
        (mean_lat [⟨0, 0, 0, 0⟩, ⟨12, 0, 0, 0⟩]) (mean_lon [⟨0, 0, 0, 0⟩, ⟨12, 0, 0, 0⟩])
        s.latitude s.longitude) none [⟨1, "S", "HOME", "H", 0, 0⟩] = some (sig, d) ∧
      sig ∈ ([⟨1, "S", "HOME", "H", 0, 0⟩] : List Signal) ∧
      d = haversineDistQ (mean_lat [⟨0, 0, 0, 0⟩, ⟨12, 0, 0, 0⟩])
        (mean_lon [⟨0, 0, 0, 0⟩, ⟨12, 0, 0, 0⟩]) sig.latitude sig.longitude ∧
      (∀ s' ∈ ([⟨1, "S", "HOME", "H", 0, 0⟩] : List Signal),
        d ≤ haversineDistQ (mean_lat [⟨0, 0, 0, 0⟩, ⟨12, 0, 0, 0⟩])
          (mean_lon [⟨0, 0, 0, 0⟩, ⟨12, 0, 0, 0⟩]) s'.latitude s'.longitude) ∧
      (∀ s' ∈ ([⟨1, "S", "HOME", "H", 0, 0⟩] : List Signal),
        haversineDistQ (mean_lat [⟨0, 0, 0, 0⟩, ⟨12, 0, 0, 0⟩])
          (mean_lon [⟨0, 0, 0, 0⟩, ⟨12, 0, 0, 0⟩]) s'.latitude s'.longitude = d →
          sig.sequence_no ≤ s'.sequence_no)) ∧
    (⟨1, "S", "HOME", "H", 0, 12, 12, 0⟩ : StopEvent ℝ) ∈
      detect_signal_stops haversineDistQ [⟨0, 0, 0, 0⟩, ⟨12, 0, 0, 0⟩]
        [⟨1, "S", "HOME", "H", 0, 0⟩] 0 10 150 ∧
    (∃ run ∈ stop_groups 0 [⟨0, 0, 0, 0⟩, ⟨12, 0, 0, 0⟩], ∃ sig d,
      nearestLoop (fun s => haversineDistQ (mean_lat run) (mean_lon run)
        s.latitude s.longitude) none [⟨1, "S", "HOME", "H", 0, 0⟩] = some (sig, d) ∧
      (⟨1, "S", "HOME", "H", 0, 12, 12, 0⟩ : StopEvent ℝ).sequence_no = sig.sequence_no ∧
      (⟨1, "S", "HOME", "H", 0, 12, 12, 0⟩ : StopEvent ℝ).signal_name = sig.signal_name ∧
      (⟨1, "S", "HOME", "H", 0, 12, 12, 0⟩ : StopEvent ℝ).asset_type = sig.asset_type ∧
      (⟨1, "S", "HOME", "H", 0, 12, 12, 0⟩ : StopEvent ℝ).emoji = sig.emoji ∧
      (⟨1, "S", "HOME", "H", 0, 12, 12, 0⟩ : StopEvent ℝ).distance_to_asset_m = round2 d) := by
  have he : (⟨1, "S", "HOME", "H", 0, 12, 12, 0⟩ : StopEvent ℝ) ∈
      detect_signal_stops haversineDistQ [⟨0, 0, 0, 0⟩, ⟨12, 0, 0, 0⟩]
        [⟨1, "S", "HOME", "H", 0, 0⟩] 0 10 150 := by
    rw [detect_stops_real_example]
    exact List.mem_singleton.mpr rfl
  refine ⟨by simp, by simp, ?_, he, ?_⟩
  · exact (detect_signal_stops_nearest_signal [⟨0, 0, 0, 0⟩, ⟨12, 0, 0, 0⟩]
      [⟨1, "S", "HOME", "H", 0, 0⟩] 0 10 150 (by simp)).1
      [⟨0, 0, 0, 0⟩, ⟨12, 0, 0, 0⟩] (by simp)
  · exact (detect_signal_stops_nearest_signal [⟨0, 0, 0, 0⟩, ⟨12, 0, 0, 0⟩]
      [⟨1, "S", "HOME", "H", 0, 0⟩] 0 10 150 (by simp)).2
      ⟨1, "S", "HOME", "H", 0, 12, 12, 0⟩ he

/-! ## Claim C4 -/

/-- Claim C4: for timestamp-sorted telemetry, the detector's grouping loop
computes exactly the maximal runs of consecutive points with speed at or below
`stop_speed_threshold` (the stopped flag); every run is non-empty and wholly
stopped, and the runs jointly contain exactly the stopped points; runs whose
duration (last minus first timestamp) is below `min_stop_duration_sec`
contribute nothing, so the output equals the filtered runs mapped through the
per-run event builder; and emitted StopEvents appear in chronological order of
run start time. -/
theorem detect_signal_stops_segmentation {α : Type} [LinearOrderedField α] [FloorRing α]
    (dist : ℚ → ℚ → ℚ → ℚ → α) (rtis : List TelemetryPoint) (signals : List Signal)
    (stop_speed_threshold : ℚ) (min_stop_duration_sec max_signal_radius_m : ℤ)
    (hsorted : rtis.Pairwise (fun a b => a.timestamp ≤ b.timestamp)) :
    stop_groups stop_speed_threshold rtis =
      maximalRuns (fun r => decide (r.speed ≤ stop_speed_threshold)) rtis ∧
    (∀ run ∈ stop_groups stop_speed_threshold rtis, run ≠ [] ∧
      ∀ x ∈ run, x.speed ≤ stop_speed_threshold) ∧
    (stop_groups stop_speed_threshold rtis).flatten =
      rtis.filter (fun r => decide (r.speed ≤ stop_speed_threshold)) ∧
    detect_signal_stops dist rtis signals stop_speed_threshold min_stop_duration_sec
        max_signal_radius_m =
      ((stop_groups stop_speed_threshold rtis).filter
        (fun run => decide (min_stop_duration_sec ≤ runDuration run))).filterMap
        (run_to_event dist signals min_stop_duration_sec max_signal_radius_m) ∧
    (detect_signal_stops dist rtis signals stop_speed_threshold min_stop_duration_sec
        max_signal_radius_m).Pairwise
      (fun e1 e2 => e1.stop_start_time ≤ e2.stop_start_time) := by
  refine ⟨stop_groups_eq_maximalRuns _ _, ?_, ?_, ?_, ?_⟩
  · intro run hrun
    rw [stop_groups_eq_maximalRuns] at hrun
    obtain ⟨hne, hall⟩ := maximalRuns_runs _ _ run hrun
    exact ⟨hne, fun x hx => by simpa using hall x hx⟩
  · rw [stop_groups_eq_maximalRuns, maximalRuns_flatten]
  · unfold detect_signal_stops
    exact filterMap_eq_filterMap_filter _ _ _ (fun run hrun hfail =>
      run_to_event_none_of_short _ _ _ _ run (by simpa using hfail))
  · unfold detect_signal_stops
    rw [stop_groups_eq_maximalRuns]
    refine List.pairwise_filterMap.mpr ?_
    have hp := maximalRuns_pairwise (fun r => decide (r.speed ≤ stop_speed_threshold))
      rtis hsorted
    refine hp.imp ?_
    intro r1 r2 hcross e1 he1 e2 he2
    rw [Option.mem_def] at he1 he2
    obtain ⟨f1, l1, s1, d1, hh1, -, -, -, -, -, rfl⟩ :=
      run_to_event_some_spec _ _ _ _ _ _ he1
    obtain ⟨f2, l2, s2, d2, hh2, -, -, -, -, -, rfl⟩ :=
      run_to_event_some_spec _ _ _ _ _ _ he2
    exact hcross f1 (List.mem_of_mem_head? hh1) f2 (List.mem_of_mem_head? hh2)

/-- Claim C4, witness: four sorted telemetry points producing a short dwell
(filtered out) and a 13-second dwell (kept). -/
theorem detect_signal_stops_segmentation_witness :
    ([⟨0, 0, 0, 0⟩, ⟨6, 0, 0, 5⟩, ⟨7, 0, 0, 0⟩, ⟨20, 0, 0, 0⟩] :
      List TelemetryPoint).Pairwise (fun a b => a.timestamp ≤ b.timestamp) ∧
    (stop_groups 0 [⟨0, 0, 0, 0⟩, ⟨6, 0, 0, 5⟩, ⟨7, 0, 0, 0⟩, ⟨20, 0, 0, 0⟩] =
      maximalRuns (fun r => decide (r.speed ≤ 0))
        [⟨0, 0, 0, 0⟩, ⟨6, 0, 0, 5⟩, ⟨7, 0, 0, 0⟩, ⟨20, 0, 0, 0⟩] ∧
    (∀ run ∈ stop_groups 0 [⟨0, 0, 0, 0⟩, ⟨6, 0, 0, 5⟩, ⟨7, 0, 0, 0⟩, ⟨20, 0, 0, 0⟩],
      run ≠ [] ∧ ∀ x ∈ run, x.speed ≤ 0) ∧
    (stop_groups 0 [⟨0, 0, 0, 0⟩, ⟨6, 0, 0, 5⟩, ⟨7, 0, 0, 0⟩, ⟨20, 0, 0, 0⟩]).flatten =
      ([⟨0, 0, 0, 0⟩, ⟨6, 0, 0, 5⟩, ⟨7, 0, 0, 0⟩, ⟨20, 0, 0, 0⟩] :
        List TelemetryPoint).filter (fun r => decide (r.speed ≤ 0)) ∧
    detect_signal_stops (fun _ _ _ _ => (0 : ℚ))
        [⟨0, 0, 0, 0⟩, ⟨6, 0, 0, 5⟩, ⟨7, 0, 0, 0⟩, ⟨20, 0, 0, 0⟩]
        [⟨1, "S", "HOME", "H", 0, 0⟩] 0 10 150 =
      ((stop_groups 0 [⟨0, 0, 0, 0⟩, ⟨6, 0, 0, 5⟩, ⟨7, 0, 0, 0⟩, ⟨20, 0, 0, 0⟩]).filter
        (fun run => decide ((10 : ℤ) ≤ runDuration run))).filterMap
        (run_to_event (fun _ _ _ _ => (0 : ℚ)) [⟨1, "S", "HOME", "H", 0, 0⟩] 10 150) ∧
    (detect_signal_stops (fun _ _ _ _ => (0 : ℚ))
        [⟨0, 0, 0, 0⟩, ⟨6, 0, 0, 5⟩, ⟨7, 0, 0, 0⟩, ⟨20, 0, 0, 0⟩]
        [⟨1, "S", "HOME", "H", 0, 0⟩] 0 10 150).Pairwise
      (fun e1 e2 => e1.stop_start_time ≤ e2.stop_start_time)) :=
  ⟨by decide, detect_signal_stops_segmentation (fun _ _ _ _ => (0 : ℚ))
    [⟨0, 0, 0, 0⟩, ⟨6, 0, 0, 5⟩, ⟨7, 0, 0, 0⟩, ⟨20, 0, 0, 0⟩]
    [⟨1, "S", "HOME", "H", 0, 0⟩] 0 10 150 (by decide)⟩
